import Mathlib

/-!
Verification of the `ask_dbx` planning-loop controller (`TechLead.analyze_job_requirements`
in `src/ask_dbx/agents/tech_lead.py`) and its small collaborators
(`src/ask_dbx/models.py`, `src/ask_dbx/integrations/markdown_manager.py`).

The Python state dict is embedded as the structure `PlanState`; the Python dict
`state["docs"]` (insertion ordered, unique keys) is embedded as an association
list with Python `dict.__setitem__` semantics (`dictSet`: update the existing
entry in place, else append).  Each LangGraph node function becomes a pure Lean
function from the state (plus the values returned by the external LLM / retriever
collaborators, passed as explicit arguments) to the new state.  Python's
substring test `needle in hay` is embedded as `strContains`.  Structured-output
values are embedded as inductive types mirroring the Pydantic `Literal` fields,
rendered to the lowercased/stripped strings the code stores.
-/

namespace AskDbx

/-- Python's substring containment `needle in hay` on lists of characters. -/
def listContainsSub (needle : List Char) : List Char → Bool
  | [] => needle.isEmpty
  | c :: t => needle.isPrefixOf (c :: t) || listContainsSub needle t

/-- Python's `needle in hay` on strings. -/
def strContains (needle hay : String) : Bool :=
  listContainsSub needle.toList hay.toList

/-- Pydantic `FilterResponse.verification : Literal["relevant", "irrelevant"]`. -/
inductive FilterVerdict
  | relevant
  | irrelevant
deriving DecidableEq, Repr

/-- The string stored by `filter_docs`: `response.verification.lower().strip()`
(the identity on the two literal values). -/
def FilterVerdict.render : FilterVerdict → String
  | .relevant => "relevant"
  | .irrelevant => "irrelevant"

/-- Pydantic `PlanVerification.verification : Literal["fully supported",
"partially supported", "no support"]`. -/
inductive SupportVerdict
  | fullySupported
  | partiallySupported
  | noSupport
deriving DecidableEq, Repr

/-- The string stored by `verify_plan_support`: `response.verification.lower().strip()`. -/
def SupportVerdict.render : SupportVerdict → String
  | .fullySupported => "fully supported"
  | .partiallySupported => "partially supported"
  | .noSupport => "no support"

/-- Pydantic `RetrieveDecision.decision : Literal["yes", "no"]`. -/
inductive RetrieveChoice
  | yes
  | no
deriving DecidableEq, Repr

/-- The string stored by `decide_retrieve`: `response.decision.lower().strip()`. -/
def RetrieveChoice.render : RetrieveChoice → String
  | .yes => "yes"
  | .no => "no"

/-- One value of the `state["docs"]` dict:
`{"doc": d, "filter_score": ..., "verify_score": ...}` (`tech_lead.py:182-186`);
the `doc` entry is kept as its `page_content`, the only part the loop reads. -/
structure DocInfo where
  content : String
  filter_score : Option String
  verify_score : Option String
deriving DecidableEq, Repr

/-- A document id (`d.metadata["id"]`). -/
abbrev DocId := String

/-- The `state["docs"]` Python dict: insertion-ordered association list. -/
abbrev Docs := List (DocId × DocInfo)

/-- One chunk returned by `retriever.get_relevant_documents`. -/
structure Chunk where
  id : DocId
  content : String
deriving DecidableEq, Repr

/-- The keys of the dict, in order. -/
def dictKeys (m : Docs) : List DocId :=
  m.map Prod.fst

/-- Python `dict.get(k)` / `dict[k]`. -/
def dictLookup (m : Docs) (k : DocId) : Option DocInfo :=
  (m.find? (fun p => decide (p.1 = k))).map Prod.snd

/-- Python `dict.__setitem__`: update the entry in place if the key is present,
otherwise append at the end (insertion order). -/
def dictSet : Docs → DocId → DocInfo → Docs
  | [], k, v => [(k, v)]
  | p :: t, k, v => if p.1 = k then (k, v) :: t else p :: dictSet t k v

/-- Mutation of one field of the dict value under key `k`
(Python `docs[doc_id][...] = ...`), with `g` the field update. -/
def keyedUpdate (g : DocInfo → α → DocInfo) (m : Docs) (k : DocId) (a : α) : Docs :=
  m.map (fun p => if p.1 = k then (p.1, g p.2 a) else p)

/-- The LangGraph state dict (`tech_lead.py:145-155`). -/
structure PlanState where
  job_requirements : String
  docs : Docs
  plan : String
  verification : String
  rating : Int
  retrieve_decision : String
  iteration : Nat
  done : Bool
  search_query : String
deriving DecidableEq, Repr

/-- `initial_state` of `analyze_job_requirements`. -/
def initialState (req : String) : PlanState :=
  { job_requirements := req
    docs := []
    plan := ""
    verification := ""
    rating := 0
    retrieve_decision := ""
    iteration := 0
    done := false
    search_query := "" }

/-- `MAX_ITERATIONS = 5` (`tech_lead.py:144`). -/
def MAX_ITERATIONS : Nat := 5

/-- Node `summarize_question`: stores the generated search query. -/
def summarize_question (s : PlanState) (query : String) : PlanState :=
  { s with search_query := query }

/-- The fresh dict value stored for a retrieved chunk (`tech_lead.py:182-186`):
both scoring flags initialised to `None`. -/
def freshRecord (c : Chunk) : DocInfo :=
  { content := c.content, filter_score := none, verify_score := none }

/-- The `for d in doc_chunks` loop of `retrieve_docs`: one unconditional
`state["docs"][d.metadata["id"]] = {...}` assignment per chunk, in order. -/
def mergeRetrieved (docs : Docs) (chunks : List Chunk) : Docs :=
  chunks.foldl (fun m c => dictSet m c.id (freshRecord c)) docs

/-- Node `retrieve_docs`: increments `iteration` then stores every chunk. -/
def retrieve_docs (s : PlanState) (chunks : List Chunk) : PlanState :=
  { s with iteration := s.iteration + 1, docs := mergeRetrieved s.docs chunks }

/-- The ids collected into `unscored_ids` by `filter_docs` (dict order). -/
def unscoredFilterIds (docs : Docs) : List DocId :=
  (docs.filter (fun p => p.2.filter_score.isNone)).map Prod.fst

/-- `docs[doc_id]["filter_score"] = response.verification.lower().strip()`. -/
def setFilterScore (m : Docs) (k : DocId) (v : FilterVerdict) : Docs :=
  keyedUpdate (fun i w => { i with filter_score := some w.render }) m k v

/-- The `for doc_id, response in zip(unscored_ids, responses)` write-back loop
of `filter_docs` (`tech_lead.py:212-213`). -/
def filterWriteBack (docs : Docs) (responses : List FilterVerdict) : Docs :=
  ((unscoredFilterIds docs).zip responses).foldl
    (fun m pr => setFilterScore m pr.1 pr.2) docs

/-- Node `filter_docs` on the docs dict: write back the batch responses, then
keep only the entries scored `"relevant"` (`tech_lead.py:216-221`). -/
def filter_docs (docs : Docs) (responses : List FilterVerdict) : Docs :=
  (filterWriteBack docs responses).filter
    (fun p => decide (p.2.filter_score = some "relevant"))

/-- The number of inputs sent to `self.filter_chain.batch` (zero inputs means
the batch call is not issued at all, `tech_lead.py:210`). -/
def filterBatchSize (docs : Docs) : Nat :=
  (unscoredFilterIds docs).length

/-- Node `filter_docs` lifted to the whole state. -/
def filterNode (s : PlanState) (responses : List FilterVerdict) : PlanState :=
  { s with docs := filter_docs s.docs responses }

/-- The `docs_text` context block of `generate_plan` (`tech_lead.py:227-231`). -/
def docsText (docs : Docs) : String :=
  if docs.isEmpty then "No documentation available."
  else String.intercalate "\n" (docs.map (fun p => p.2.content))

/-- Node `generate_plan`: the plan chain is invoked on the job requirements and
the concatenated context block, and its completion overwrites `plan`. -/
def generate_plan (s : PlanState) (planChain : String → String → String) : PlanState :=
  { s with plan := planChain s.job_requirements (docsText s.docs) }

/-- The ids collected into `unscored_ids` by `verify_plan_support`. -/
def unscoredVerifyIds (docs : Docs) : List DocId :=
  (docs.filter (fun p => p.2.verify_score.isNone)).map Prod.fst

/-- `docs[doc_id]["verify_score"] = response.verification.lower().strip()`. -/
def setVerifyScore (m : Docs) (k : DocId) (v : SupportVerdict) : Docs :=
  keyedUpdate (fun i w => { i with verify_score := some w.render }) m k v

/-- The write-back loop of `verify_plan_support` (`tech_lead.py:258-259`). -/
def verifyWriteBack (docs : Docs) (responses : List SupportVerdict) : Docs :=
  ((unscoredVerifyIds docs).zip responses).foldl
    (fun m pr => setVerifyScore m pr.1 pr.2) docs

/-- Python `any("no support" in v for v in verifications)`: lazily evaluates the
generator, so a `None` score raises `TypeError` (modelled as `none`) only when
reached before a match. -/
def anyNoSupport : List (Option String) → Option Bool
  | [] => some false
  | some v :: rest =>
      if strContains "no support" v then some true else anyNoSupport rest
  | none :: _ => none

/-- Python `all("fully supported" in v for v in verifications)`, lazily. -/
def allFullySupported : List (Option String) → Option Bool
  | [] => some true
  | some v :: rest =>
      if strContains "fully supported" v then allFullySupported rest else some false
  | none :: _ => none

/-- The aggregation of `verify_plan_support` (`tech_lead.py:262-268`):
`if any(...) / elif verifications and all(...) / else`, with `none` standing for
the `TypeError` raised when a still-unscored value is reached. -/
def overallVerification (verifications : List (Option String)) : Option String :=
  match anyNoSupport verifications with
  | none => none
  | some true => some "partially supported"
  | some false =>
      if verifications.isEmpty then some "partially supported"
      else
        match allFullySupported verifications with
        | none => none
        | some true => some "fully supported"
        | some false => some "partially supported"

/-- Node `verify_plan_support`: write back the batch responses, then aggregate
over the `verify_score` of every document in the dict; `none` models the run
aborting with a `TypeError` when a score is still missing. -/
def verify_plan_support (s : PlanState) (responses : List SupportVerdict) :
    Option PlanState :=
  let docs2 := verifyWriteBack s.docs responses
  match overallVerification (docs2.map (fun p => p.2.verify_score)) with
  | none => none
  | some o => some { s with docs := docs2, verification := o }

/-- Node `rate_plan`: stores the structured rating. -/
def rate_plan (s : PlanState) (rating : Int) : PlanState :=
  { s with rating := rating }

/-- Node `decide_retrieve`: stores the structured yes/no decision. -/
def decide_retrieve (s : PlanState) (d : RetrieveChoice) : PlanState :=
  { s with retrieve_decision := d.render }

/-- The two conditional-edge targets of `branch_decide`. -/
inductive BranchTarget
  | summarizeQuestion
  | terminal
deriving DecidableEq, Repr

/-- `branch_decide` (`tech_lead.py:295-306`), returning the chosen edge target
together with the (possibly `done`-updated) state. -/
def branch_decide (s : PlanState) : BranchTarget × PlanState :=
  if MAX_ITERATIONS ≤ s.iteration then (BranchTarget.terminal, s)
  else if strContains "fully supported" s.verification = true ∧ 4 ≤ s.rating then
    (BranchTarget.terminal, { s with done := true })
  else if strContains "yes" s.retrieve_decision = true then
    (BranchTarget.summarizeQuestion, s)
  else (BranchTarget.terminal, s)

/-- The named nodes of the LangGraph (`tech_lead.py:310-316`), plus the
terminal `END` pseudo-node. -/
inductive Node
  | summarizeQ
  | retrieveD
  | filterD
  | generateP
  | verifyP
  | rateP
  | decideR
  | terminal
deriving DecidableEq, Repr

/-- A configuration of the running graph: current node plus state. -/
abbrev Config := Node × PlanState

/-- The `decide_retrieve` node followed by the conditional edge
`branch_decide` (`tech_lead.py:326`). -/
def decideTransition (s : PlanState) (d : RetrieveChoice) : Config :=
  let b := branch_decide (decide_retrieve s d)
  (if b.1 = BranchTarget.summarizeQuestion then Node.summarizeQ else Node.terminal,
   b.2)

/-- One transition of the compiled graph.  The values produced by the external
collaborators (search query, retrieved chunks, batch classifications, plan
completion, rating, retrieve decision) are universally quantified; the rating
is constrained to `[1,5]` by the Pydantic `PlanRating` schema, and the verify
node only steps when its aggregation does not raise. -/
inductive LoopStep : Config → Config → Prop
  | stepSummarize (s : PlanState) (q : String) :
      LoopStep (Node.summarizeQ, s) (Node.retrieveD, summarize_question s q)
  | stepRetrieve (s : PlanState) (chunks : List Chunk) :
      LoopStep (Node.retrieveD, s) (Node.filterD, retrieve_docs s chunks)
  | stepFilter (s : PlanState) (rs : List FilterVerdict) :
      LoopStep (Node.filterD, s) (Node.generateP, filterNode s rs)
  | stepGenerate (s : PlanState) (chain : String → String → String) :
      LoopStep (Node.generateP, s) (Node.verifyP, generate_plan s chain)
  | stepVerify (s s2 : PlanState) (rs : List SupportVerdict) :
      verify_plan_support s rs = some s2 →
      LoopStep (Node.verifyP, s) (Node.rateP, s2)
  | stepRate (s : PlanState) (r : Int) : 1 ≤ r → r ≤ 5 →
      LoopStep (Node.rateP, s) (Node.decideR, rate_plan s r)
  | stepDecide (s : PlanState) (d : RetrieveChoice) :
      LoopStep (Node.decideR, s) (decideTransition s d)

/-- Reachability from the entry point `summarize_question` with the initial
state built from the markdown requirements `req`. -/
def Reachable (req : String) (c : Config) : Prop :=
  Relation.ReflTransGen LoopStep (Node.summarizeQ, initialState req) c

/-- Inductive invariant for the iteration bound: `iteration` never exceeds
`MAX_ITERATIONS`, and is strictly below it whenever control is at (or headed
into) the node that increments it. -/
def iterInvariant (c : Config) : Prop :=
  c.2.iteration ≤ MAX_ITERATIONS ∧
    ((c.1 = Node.summarizeQ ∨ c.1 = Node.retrieveD) →
      c.2.iteration < MAX_ITERATIONS)

/-- Inductive invariant on the documents dict: keys are unique, every
`filter_score` is either unset or `"relevant"`, and away from the
retrieve→filter window every document is scored `"relevant"`. -/
def docsInv (c : Config) : Prop :=
  (dictKeys c.2.docs).Nodup ∧
    (∀ p ∈ c.2.docs,
      p.2.filter_score = none ∨ p.2.filter_score = some "relevant") ∧
    ((c.1 = Node.generateP ∨ c.1 = Node.verifyP ∨ c.1 = Node.rateP ∨
        c.1 = Node.decideR ∨ c.1 = Node.terminal) →
      ∀ p ∈ c.2.docs, p.2.filter_score = some "relevant")

/-- The `Task` Pydantic model of `models.py:6-11`: `objective` and `steps` have
no default and are required; the other fields default to `None`. -/
structure Task where
  id : Option Int
  objective : String
  steps : List String
  documentation : Option String
  state : Option String
deriving DecidableEq, Repr

/-- The keyword arguments of a `Task(...)` constructor call, as used at
`tech_lead.py:333-341` (`details` is not a declared field of `Task`; Pydantic
ignores unknown keywords under its default config). -/
structure TaskArgs where
  id : Option Int
  objective : Option String
  steps : Option (List String)
  documentation : Option String
  state : Option String
  details : Option String
deriving DecidableEq, Repr

/-- Pydantic validation of a `Task(...)` call: the undeclared `details` keyword
is ignored, and a missing `objective` or `steps` raises a `ValidationError`
(modelled as `Except.error`). -/
def validateTask (args : TaskArgs) : Except String Task :=
  match args.objective, args.steps with
  | some o, some st =>
      Except.ok { id := args.id, objective := o, steps := st,
                  documentation := args.documentation, state := args.state }
  | _, _ =>
      Except.error "ValidationError: fields objective and steps are required"

/-- The final packaging of `analyze_job_requirements` (`tech_lead.py:333-341`):
`Task(id=1, details=final_plan, documentation="\n".join(doc texts),
state="PENDING")` — no `objective` or `steps` keyword is passed. -/
def finalizeTask (finalState : PlanState) : Except String Task :=
  validateTask
    { id := some 1
      objective := none
      steps := none
      documentation := some (String.intercalate "\n"
        (finalState.docs.map (fun p => p.2.content)))
      state := some "PENDING"
      details := some finalState.plan }

/-- The attributes of the object handed to `MarkdownManager.write_update`
(documented as `'id'`, `'details'`, `'state'`). -/
structure TaskView where
  id : Int
  details : String
  state : String
deriving DecidableEq, Repr

/-- The markdown appended by the `try` block of `write_update`
(`markdown_manager.py:26-30`). -/
def markdownBlock (t : TaskView) : String :=
  "## Task " ++ toString t.id ++ "\n" ++
  "- **Details:** " ++ t.details ++ "\n" ++
  "- **State:** " ++ t.state ++ "\n" ++ "\n"

/-- Observable outcome of a call to `write_update`: either the method returns
normally (having appended the block, or nothing when the file operation
failed), or an exception escapes to the caller. -/
inductive WriteOutcome
  | returnedNormally (appended : Option String)
  | raisedToCaller (err : String)
deriving DecidableEq, Repr

/-- Whether the method returned (rather than propagated an exception). -/
def WriteOutcome.returnsNormally : WriteOutcome → Bool
  | .returnedNormally _ => true
  | .raisedToCaller _ => false

/-- `MarkdownManager.write_update` (`markdown_manager.py:18-37`): the whole
open/append sequence runs inside `try`, whose outcome is `fileResult`; the
`except Exception` arm prints and falls through, so both arms return. -/
def write_update (t : TaskView) (fileResult : Except String Unit) : WriteOutcome :=
  match fileResult with
  | Except.ok _ => WriteOutcome.returnedNormally (some (markdownBlock t))
  | Except.error _ => WriteOutcome.returnedNormally none

/-- C1: the terminal-decision policy of `branch_decide` applies its rules in
order: (1) at or beyond `MAX_ITERATIONS` the loop terminates regardless of the
other scores and the state is unchanged; (2) otherwise a fully-supported
verification with rating at least 4 terminates with `done := true`;
(3) otherwise a yes retrieve decision loops back to `summarize_question`;
(4) otherwise the loop terminates.  In particular a state with iteration 5,
retrieve decision `"yes"` and rating 3 terminates through rule 1 with `done`
unchanged (hence still `false`). -/
theorem branch_decide_policy :
    (∀ s : PlanState, MAX_ITERATIONS ≤ s.iteration →
      branch_decide s = (BranchTarget.terminal, s)) ∧
    (∀ s : PlanState, s.iteration < MAX_ITERATIONS →
      strContains "fully supported" s.verification = true → 4 ≤ s.rating →
      branch_decide s = (BranchTarget.terminal, { s with done := true })) ∧
    (∀ s : PlanState, s.iteration < MAX_ITERATIONS →
      ¬(strContains "fully supported" s.verification = true ∧ 4 ≤ s.rating) →
      strContains "yes" s.retrieve_decision = true →
      branch_decide s = (BranchTarget.summarizeQuestion, s)) ∧
    (∀ s : PlanState, s.iteration < MAX_ITERATIONS →
      ¬(strContains "fully supported" s.verification = true ∧ 4 ≤ s.rating) →
      strContains "yes" s.retrieve_decision = false →
      branch_decide s = (BranchTarget.terminal, s)) ∧
    (∀ s : PlanState, s.iteration = 5 → s.retrieve_decision = "yes" →
      s.rating = 3 →
      branch_decide s = (BranchTarget.terminal, s) ∧
        (branch_decide s).2.done = s.done) := by
  refine ⟨?_, ?_, ?_, ?_, ?_⟩
  · intro s h
    simp [branch_decide, h]
  · intro s h hv hr
    simp [branch_decide, Nat.not_le.mpr h, hv, hr]
  · intro s h hq hy
    simp [branch_decide, Nat.not_le.mpr h, hq, hy]
  · intro s h hq hy
    simp [branch_decide, Nat.not_le.mpr h, hq, hy]
  · intro s hi _ _
    have h5 : MAX_ITERATIONS ≤ s.iteration := by
      simp [MAX_ITERATIONS, hi]
    constructor
    · simp [branch_decide, h5]
    · simp [branch_decide, h5]

/-- Witness for `branch_decide_policy` at a concrete state with iteration 5,
decision `"yes"` and rating 3. -/
theorem branch_decide_policy_witness :
    branch_decide
        { job_requirements := "r", docs := [], plan := "p",
          verification := "partially supported", rating := 3,
          retrieve_decision := "yes", iteration := 5, done := false,
          search_query := "q" } =
      (BranchTarget.terminal,
        { job_requirements := "r", docs := [], plan := "p",
          verification := "partially supported", rating := 3,
          retrieve_decision := "yes", iteration := 5, done := false,
          search_query := "q" }) :=
  (branch_decide_policy.2.2.2.2 _ rfl rfl rfl).1

/-- A successful `verify_plan_support` step keeps `iteration` and replaces the
docs dict by the write-back result. -/
theorem verify_plan_support_shape {s s2 : PlanState} {rs : List SupportVerdict}
    (h : verify_plan_support s rs = some s2) :
    s2.iteration = s.iteration ∧ s2.docs = verifyWriteBack s.docs rs := by
  simp only [verify_plan_support] at h
  split at h
  · exact absurd h (by simp)
  · rw [Option.some_inj] at h
    subst h
    exact ⟨rfl, rfl⟩

/-- `branch_decide` returns the input state, possibly with `done` set. -/
theorem branch_decide_snd_shape (s : PlanState) :
    (branch_decide s).2 = s ∨ (branch_decide s).2 = { s with done := true } := by
  unfold branch_decide
  split
  · exact Or.inl rfl
  split
  · exact Or.inr rfl
  split
  · exact Or.inl rfl
  · exact Or.inl rfl

/-- The summarize edge is only taken below the iteration cap. -/
theorem branch_decide_summarize_lt {s : PlanState}
    (h : (branch_decide s).1 = BranchTarget.summarizeQuestion) :
    s.iteration < MAX_ITERATIONS := by
  by_contra hn
  rw [Nat.not_lt] at hn
  simp [branch_decide, hn] at h

/-- Exactly the retrieve node increments `iteration`; every other node leaves
it unchanged. -/
theorem step_iteration {c c2 : Config} (h : LoopStep c c2) :
    c2.2.iteration =
      if c.1 = Node.retrieveD then c.2.iteration + 1 else c.2.iteration := by
  cases h with
  | stepSummarize s q => simp [summarize_question]
  | stepRetrieve s chunks => simp [retrieve_docs]
  | stepFilter s rs => simp [filterNode]
  | stepGenerate s chain => simp [generate_plan]
  | stepVerify s s2 rs hv => simp [(verify_plan_support_shape hv).1]
  | stepRate s r h1 h2 => simp [rate_plan]
  | stepDecide s d =>
      have hiter :
          (branch_decide (decide_retrieve s d)).2.iteration = s.iteration := by
        rcases branch_decide_snd_shape (decide_retrieve s d) with h | h <;>
          rw [h] <;> simp [decide_retrieve]
      show (branch_decide (decide_retrieve s d)).2.iteration = _
      simp [hiter]

/-- Every loop step preserves the iteration invariant. -/
theorem step_preserves_iterInvariant {c c2 : Config} (h : LoopStep c c2)
    (hi : iterInvariant c) : iterInvariant c2 := by
  cases h with
  | stepSummarize s q =>
      have hlt := hi.2 (Or.inl rfl)
      exact ⟨Nat.le_of_lt (by simpa [summarize_question] using hlt),
        fun _ => by simpa [summarize_question] using hlt⟩
  | stepRetrieve s chunks =>
      have hlt := hi.2 (Or.inr rfl)
      refine ⟨by simpa [retrieve_docs] using hlt, fun hc => ?_⟩
      rcases hc with hc | hc <;> exact absurd hc (by simp)
  | stepFilter s rs =>
      refine ⟨by simpa [filterNode] using hi.1, fun hc => ?_⟩
      rcases hc with hc | hc <;> exact absurd hc (by simp)
  | stepGenerate s chain =>
      refine ⟨by simpa [generate_plan] using hi.1, fun hc => ?_⟩
      rcases hc with hc | hc <;> exact absurd hc (by simp)
  | stepVerify s s2 rs hv =>
      refine ⟨by rw [(verify_plan_support_shape hv).1]; exact hi.1, fun hc => ?_⟩
      rcases hc with hc | hc <;> exact absurd hc (by simp)
  | stepRate s r h1 h2 =>
      refine ⟨by simpa [rate_plan] using hi.1, fun hc => ?_⟩
      rcases hc with hc | hc <;> exact absurd hc (by simp)
  | stepDecide s d =>
      have hiter :
          (branch_decide (decide_retrieve s d)).2.iteration = s.iteration := by
        rcases branch_decide_snd_shape (decide_retrieve s d) with h | h <;>
          rw [h] <;> simp [decide_retrieve]
      constructor
      · show (branch_decide (decide_retrieve s d)).2.iteration ≤ MAX_ITERATIONS
        rw [hiter]
        exact hi.1
      · intro hc
        show (branch_decide (decide_retrieve s d)).2.iteration < MAX_ITERATIONS
        rw [hiter]
        rcases hc with hc | hc
        · simp only [decideTransition] at hc
          split at hc
          · rename_i hb
            have hlt := branch_decide_summarize_lt hb
            simpa [decide_retrieve] using hlt
          · exact absurd hc (by simp)
        · simp only [decideTransition] at hc
          split at hc <;> exact absurd hc (by simp)

/-- Every reachable configuration satisfies the iteration invariant. -/
theorem reachable_iterInvariant {req : String} {c : Config}
    (h : Reachable req c) : iterInvariant c := by
  induction h with
  | refl =>
      exact ⟨by simp [initialState, MAX_ITERATIONS],
        fun _ => by simp [initialState, MAX_ITERATIONS]⟩
  | tail _ hstep ih => exact step_preserves_iterInvariant hstep ih

/-- C2: the planning loop starts at iteration 0; each pass increments the
counter exactly once (at the start of the retrieve node) and no other node
changes it; the counter never decreases along a step; and in every reachable
configuration it never exceeds `MAX_ITERATIONS = 5`. -/
theorem iteration_bounded :
    (∀ req : String, (initialState req).iteration = 0) ∧
    (∀ c c2 : Config, LoopStep c c2 →
      c2.2.iteration =
        if c.1 = Node.retrieveD then c.2.iteration + 1 else c.2.iteration) ∧
    (∀ c c2 : Config, LoopStep c c2 → c.2.iteration ≤ c2.2.iteration) ∧
    (∀ (req : String) (c : Config), Reachable req c →
      c.2.iteration ≤ MAX_ITERATIONS) := by
  refine ⟨fun _ => rfl, fun _ _ h => step_iteration h, ?_, ?_⟩
  · intro c c2 h
    rw [step_iteration h]
    split <;> omega
  · intro req c h
    exact (reachable_iterInvariant h).1

/-- Witness for `iteration_bounded` at the initial configuration. -/
theorem iteration_bounded_witness :
    ((Node.summarizeQ, initialState "reqs") : Config).2.iteration ≤
      MAX_ITERATIONS :=
  iteration_bounded.2.2.2 "reqs" _ Relation.ReflTransGen.refl

/-- C6 (code bug): for every terminal state, the final packaging
`Task(id=1, details=plan, documentation=..., state="PENDING")` raises a
Pydantic `ValidationError`, because `Task` declares no `details` field and its
required `objective` and `steps` fields are not passed — so the plan is never
successfully packaged into a Task record.  Evaluated below at a concrete
terminal state. -/
theorem finalizeTask_always_fails :
    (∀ s : PlanState, finalizeTask s =
      Except.error "ValidationError: fields objective and steps are required") ∧
    finalizeTask
        { job_requirements := "Create a nightly ETL job", docs := [],
          plan := "1. create the job", verification := "partially supported",
          rating := 3, retrieve_decision := "no", iteration := 1, done := false,
          search_query := "q" } =
      Except.error "ValidationError: fields objective and steps are required" :=
  ⟨fun _ => rfl, rfl⟩

/-- C10: `MarkdownManager.write_update` returns normally for every task and
every outcome of the file open/append sequence: an exception raised inside the
`try` block is caught by the `except Exception` arm, so no failure propagates
to the caller; on success the markdown block is appended. -/
theorem write_update_never_raises :
    (∀ (t : TaskView) (fileResult : Except String Unit),
      (write_update t fileResult).returnsNormally = true) ∧
    (∀ t : TaskView,
      write_update t (Except.ok ()) =
        WriteOutcome.returnedNormally (some (markdownBlock t))) ∧
    (∀ (t : TaskView) (e : String),
      write_update t (Except.error e) = WriteOutcome.returnedNormally none) := by
  refine ⟨fun t r => ?_, fun t => rfl, fun t e => rfl⟩
  cases r <;> rfl

/-- Unfolding `dictLookup` on a cons cell. -/
theorem dictLookup_cons (p : DocId × DocInfo) (t : Docs) (k : DocId) :
    dictLookup (p :: t) k =
      if p.1 = k then some p.2 else dictLookup t k := by
  by_cases h : p.1 = k
  · simp [dictLookup, List.find?_cons_of_pos, h]
  · rw [dictLookup, List.find?_cons_of_neg _ (by simp [h]), if_neg h]
    rfl

/-- Setting a key makes it look up to the new value. -/
theorem dictLookup_dictSet_self (m : Docs) (k : DocId) (v : DocInfo) :
    dictLookup (dictSet m k v) k = some v := by
  induction m with
  | nil => simp [dictSet, dictLookup_cons]
  | cons p t ih =>
      by_cases h : p.1 = k
      · simp [dictSet, h, dictLookup_cons]
      · simp [dictSet, h, dictLookup_cons, ih]

/-- Setting a key leaves every other key unchanged. -/
theorem dictLookup_dictSet_other (m : Docs) (k k2 : DocId) (v : DocInfo)
    (h : k2 ≠ k) : dictLookup (dictSet m k v) k2 = dictLookup m k2 := by
  induction m with
  | nil =>
      show dictLookup [(k, v)] k2 = dictLookup [] k2
      rw [dictLookup_cons, if_neg (fun hc : k = k2 => h hc.symm)]
  | cons p t ih =>
      by_cases hp : p.1 = k
      · simp only [dictSet, if_pos hp]
        rw [dictLookup_cons, dictLookup_cons,
          if_neg (fun hc : k = k2 => h hc.symm),
          if_neg (fun hc : p.1 = k2 => h (hp.symm.trans hc).symm)]
      · simp only [dictSet, if_neg hp]
        rw [dictLookup_cons, dictLookup_cons, ih]

/-- The keys of a cons cell. -/
theorem dictKeys_cons (p : DocId × DocInfo) (t : Docs) :
    dictKeys (p :: t) = p.1 :: dictKeys t := rfl

/-- A key of `dictSet m k v` is a key of `m` or `k` itself. -/
theorem mem_dictKeys_dictSet {m : Docs} {k x : DocId} {v : DocInfo}
    (h : x ∈ dictKeys (dictSet m k v)) : x ∈ dictKeys m ∨ x = k := by
  induction m with
  | nil =>
      simp [dictSet, dictKeys] at h
      exact Or.inr h
  | cons p t ih =>
      by_cases hp : p.1 = k
      · rw [dictSet, if_pos hp, dictKeys_cons] at h
        rcases List.mem_cons.mp h with h | h
        · exact Or.inr h
        · exact Or.inl (by rw [dictKeys_cons]; exact List.mem_cons_of_mem _ h)
      · rw [dictSet, if_neg hp, dictKeys_cons] at h
        rcases List.mem_cons.mp h with h | h
        · exact Or.inl (by rw [dictKeys_cons, h]; exact List.mem_cons_self _ _)
        · rcases ih h with h | h
          · exact Or.inl (by rw [dictKeys_cons]; exact List.mem_cons_of_mem _ h)
          · exact Or.inr h

/-- `dictSet` keeps the keys without duplicates. -/
theorem dictKeys_dictSet_nodup {m : Docs} (k : DocId) (v : DocInfo)
    (h : (dictKeys m).Nodup) : (dictKeys (dictSet m k v)).Nodup := by
  induction m with
  | nil => simp [dictSet, dictKeys]
  | cons p t ih =>
      rw [dictKeys_cons] at h
      obtain ⟨h1, h2⟩ := List.nodup_cons.mp h
      by_cases hp : p.1 = k
      · rw [dictSet, if_pos hp, dictKeys_cons]
        exact List.nodup_cons.mpr ⟨by rw [← hp]; exact h1, h2⟩
      · rw [dictSet, if_neg hp, dictKeys_cons]
        refine List.nodup_cons.mpr ⟨fun hc => ?_, ih h2⟩
        rcases mem_dictKeys_dictSet hc with hc | hc
        · exact h1 hc
        · exact hp hc

/-- An element of `dictSet m k v` is an element of `m` or the new entry. -/
theorem mem_dictSet {m : Docs} {k : DocId} {v : DocInfo} {p : DocId × DocInfo}
    (h : p ∈ dictSet m k v) : p ∈ m ∨ p = (k, v) := by
  induction m with
  | nil => exact Or.inr (by simpa [dictSet] using h)
  | cons q t ih =>
      by_cases hq : q.1 = k
      · rw [dictSet, if_pos hq] at h
        rcases List.mem_cons.mp h with h | h
        · exact Or.inr h
        · exact Or.inl (List.mem_cons_of_mem _ h)
      · rw [dictSet, if_neg hq] at h
        rcases List.mem_cons.mp h with h | h
        · exact Or.inl (by rw [h]; exact List.mem_cons_self _ _)
        · rcases ih h with h | h
          · exact Or.inl (List.mem_cons_of_mem _ h)
          · exact Or.inr h

/-- `mergeRetrieved` on a cons of chunks. -/
theorem mergeRetrieved_cons (docs : Docs) (c : Chunk) (cs : List Chunk) :
    mergeRetrieved docs (c :: cs) =
      mergeRetrieved (dictSet docs c.id (freshRecord c)) cs := rfl

/-- Keys not retrieved are untouched by the merge loop. -/
theorem dictLookup_mergeRetrieved_not_retrieved :
    ∀ (chunks : List Chunk) (docs : Docs) (k : DocId),
      (∀ c ∈ chunks, c.id ≠ k) →
      dictLookup (mergeRetrieved docs chunks) k = dictLookup docs k
  | [], _, _, _ => rfl
  | c :: cs, docs, k, h => by
      rw [mergeRetrieved_cons,
        dictLookup_mergeRetrieved_not_retrieved cs _ k
          (fun c2 hc2 => h c2 (List.mem_cons_of_mem _ hc2)),
        dictLookup_dictSet_other]
      exact fun hc => h c (List.mem_cons_self _ _) hc.symm

/-- C3 (amended): the merge loop of Retrieve overwrites: after Retrieve every
retrieved chunk's id maps to a fresh record with that chunk's content and both
scores unscored, regardless of any record previously stored under that id
(so an existing record's scores are reset, not preserved); ids that were not
retrieved keep their previous record. -/
theorem mergeRetrieved_overwrites :
    (∀ (docs : Docs) (chunks : List Chunk) (c : Chunk),
      (chunks.map Chunk.id).Nodup → c ∈ chunks →
      dictLookup (mergeRetrieved docs chunks) c.id = some (freshRecord c)) ∧
    (∀ (docs : Docs) (chunks : List Chunk) (k : DocId),
      (∀ c ∈ chunks, c.id ≠ k) →
      dictLookup (mergeRetrieved docs chunks) k = dictLookup docs k) := by
  constructor
  · intro docs chunks
    induction chunks generalizing docs with
    | nil => intro c _ hc; exact absurd hc (List.not_mem_nil c)
    | cons c0 cs ih =>
        intro c hnd hc
        rw [List.map_cons] at hnd
        obtain ⟨h1, h2⟩ := List.nodup_cons.mp hnd
        rcases List.mem_cons.mp hc with rfl | hmem
        · rw [mergeRetrieved_cons,
            dictLookup_mergeRetrieved_not_retrieved cs _ c.id
              (fun c2 hc2 heq => h1 (heq ▸ List.mem_map_of_mem Chunk.id hc2)),
            dictLookup_dictSet_self]
        · exact ih _ c h2 hmem
  · intro docs chunks k h
    exact dictLookup_mergeRetrieved_not_retrieved chunks docs k h

/-- Witness for `mergeRetrieved_overwrites` at a concrete chunk list. -/
theorem mergeRetrieved_overwrites_witness :
    dictLookup
        (mergeRetrieved
          [("a", { content := "old", filter_score := some "relevant",
                   verify_score := some "fully supported" })]
          [{ id := "a", content := "new" }]) "a" =
      some (freshRecord { id := "a", content := "new" }) :=
  mergeRetrieved_overwrites.1
    [("a", { content := "old", filter_score := some "relevant",
             verify_score := some "fully supported" })]
    [{ id := "a", content := "new" }]
    { id := "a", content := "new" }
    (by decide) (by decide)

/-- C3 counterexample: retrieving a chunk whose id is already a key of the
documents map replaces the existing `DocumentRecord`: its content is replaced
and both its `filterScore` and `verifyScore` are reset to unscored, refuting
the claim that existing entries are left untouched. -/
theorem mergeRetrieved_not_idempotent :
    mergeRetrieved
        [("a", { content := "old text", filter_score := some "relevant",
                 verify_score := some "fully supported" })]
        [{ id := "a", content := "new text" }] =
      [("a", { content := "new text", filter_score := none,
               verify_score := none })] ∧
    dictLookup
        (mergeRetrieved
          [("a", { content := "old text", filter_score := some "relevant",
                   verify_score := some "fully supported" })]
          [{ id := "a", content := "new text" }]) "a" ≠
      some { content := "old text", filter_score := some "relevant",
             verify_score := some "fully supported" } := by
  exact ⟨by decide, by decide⟩

/-- Updating a key applies the field update to the looked-up value. -/
theorem dictLookup_keyedUpdate_self (g : DocInfo → α → DocInfo) (m : Docs)
    (k : DocId) (a : α) :
    dictLookup (keyedUpdate g m k a) k =
      (dictLookup m k).map (fun i => g i a) := by
  induction m with
  | nil => rfl
  | cons p t ih =>
      show dictLookup
          ((if p.1 = k then (p.1, g p.2 a) else p) :: keyedUpdate g t k a) k =
        (dictLookup (p :: t) k).map (fun i => g i a)
      by_cases h : p.1 = k
      · rw [if_pos h, dictLookup_cons, dictLookup_cons, if_pos h, if_pos h]
        rfl
      · rw [if_neg h, dictLookup_cons, dictLookup_cons, if_neg h, if_neg h, ih]

/-- Updating a key leaves other keys' lookups unchanged. -/
theorem dictLookup_keyedUpdate_other (g : DocInfo → α → DocInfo) (m : Docs)
    (k k2 : DocId) (a : α) (h : k2 ≠ k) :
    dictLookup (keyedUpdate g m k a) k2 = dictLookup m k2 := by
  induction m with
  | nil => rfl
  | cons p t ih =>
      show dictLookup
          ((if p.1 = k then (p.1, g p.2 a) else p) :: keyedUpdate g t k a) k2 =
        dictLookup (p :: t) k2
      by_cases hp : p.1 = k
      · rw [if_pos hp, dictLookup_cons, dictLookup_cons,
          if_neg (fun hc : p.1 = k2 => h (hp.symm.trans hc).symm),
          if_neg (fun hc : p.1 = k2 => h (hp.symm.trans hc).symm), ih]
      · rw [if_neg hp, dictLookup_cons, dictLookup_cons, ih]

/-- `keyedUpdate` preserves the key list. -/
theorem dictKeys_keyedUpdate (g : DocInfo → α → DocInfo) (m : Docs) (k : DocId)
    (a : α) : dictKeys (keyedUpdate g m k a) = dictKeys m := by
  induction m with
  | nil => rfl
  | cons p t ih =>
      show (if p.1 = k then (p.1, g p.2 a) else p).1 ::
          dictKeys (keyedUpdate g t k a) = p.1 :: dictKeys t
      by_cases h : p.1 = k
      · rw [if_pos h, ih]
      · rw [if_neg h, ih]

/-- Lookup characterisation of the positional write-back loop: a list of
keyed updates with pairwise-distinct keys updates exactly the paired keys and
leaves every other key unchanged. -/
theorem dictLookup_foldl_keyedUpdate (g : DocInfo → α → DocInfo) :
    ∀ (ps : List (DocId × α)) (m : Docs), (ps.map Prod.fst).Nodup →
      (∀ pr ∈ ps,
        dictLookup (ps.foldl (fun m2 pr2 => keyedUpdate g m2 pr2.1 pr2.2) m) pr.1 =
          (dictLookup m pr.1).map (fun i => g i pr.2)) ∧
      (∀ k, k ∉ ps.map Prod.fst →
        dictLookup (ps.foldl (fun m2 pr2 => keyedUpdate g m2 pr2.1 pr2.2) m) k =
          dictLookup m k)
  | [], m, _ => ⟨fun pr hpr => absurd hpr (List.not_mem_nil pr), fun _ _ => rfl⟩
  | p :: t, m, h => by
      rw [List.map_cons] at h
      obtain ⟨h1, h2⟩ := List.nodup_cons.mp h
      have ihAll := dictLookup_foldl_keyedUpdate g t
      constructor
      · intro pr hpr
        rcases List.mem_cons.mp hpr with rfl | hmem
        · rw [List.foldl_cons,
            (ihAll (keyedUpdate g m pr.1 pr.2) h2).2 pr.1 h1,
            dictLookup_keyedUpdate_self]
        · rw [List.foldl_cons, (ihAll _ h2).1 pr hmem,
            dictLookup_keyedUpdate_other g m p.1 pr.1 p.2
              (fun hc => h1 (hc ▸ List.mem_map_of_mem Prod.fst hmem))]
      · intro k hk
        rw [List.foldl_cons,
          (ihAll _ h2).2 k (fun hc => hk (List.mem_cons_of_mem _ hc)),
          dictLookup_keyedUpdate_other g m p.1 k p.2
            (fun hc => hk (hc ▸ List.mem_cons_self _ _))]

/-- The first components of a zip form a sublist of the left list. -/
theorem map_fst_zip_sublist :
    ∀ (l : List DocId) (r : List β), ((l.zip r).map Prod.fst).Sublist l
  | [], _ => by simp
  | _ :: _, [] => by simp
  | a :: l, b :: r => by
      simp only [List.zip_cons_cons, List.map_cons]
      exact List.Sublist.cons₂ a (map_fst_zip_sublist l r)

/-- The unscored-filter id list inherits the dict keys' uniqueness. -/
theorem unscoredFilterIds_nodup {docs : Docs} (h : (dictKeys docs).Nodup) :
    (unscoredFilterIds docs).Nodup :=
  h.sublist ((List.filter_sublist docs).map Prod.fst)

/-- The unscored-verify id list inherits the dict keys' uniqueness. -/
theorem unscoredVerifyIds_nodup {docs : Docs} (h : (dictKeys docs).Nodup) :
    (unscoredVerifyIds docs).Nodup :=
  h.sublist ((List.filter_sublist docs).map Prod.fst)

/-- C4 (amended): the batch write-back in Filter and in VerifySupport pairs the
unscored documents with the returned classifications positionally via `zip` and
never checks the counts: each paired document receives exactly the
classification at its position, every unpaired key (in particular every surplus
unscored document when fewer results than inputs come back) is left unchanged,
and no error is raised — a count mismatch silently yields a partial write. -/
theorem batch_writeback_positional :
    (∀ (docs : Docs) (rs : List FilterVerdict), (dictKeys docs).Nodup →
      (∀ pr ∈ (unscoredFilterIds docs).zip rs,
        dictLookup (filterWriteBack docs rs) pr.1 =
          (dictLookup docs pr.1).map
            (fun i => { i with filter_score := some pr.2.render })) ∧
      (∀ k, k ∉ ((unscoredFilterIds docs).zip rs).map Prod.fst →
        dictLookup (filterWriteBack docs rs) k = dictLookup docs k)) ∧
    (∀ (docs : Docs) (rs : List SupportVerdict), (dictKeys docs).Nodup →
      (∀ pr ∈ (unscoredVerifyIds docs).zip rs,
        dictLookup (verifyWriteBack docs rs) pr.1 =
          (dictLookup docs pr.1).map
            (fun i => { i with verify_score := some pr.2.render })) ∧
      (∀ k, k ∉ ((unscoredVerifyIds docs).zip rs).map Prod.fst →
        dictLookup (verifyWriteBack docs rs) k = dictLookup docs k)) := by
  constructor
  · intro docs rs h
    have hnd : (((unscoredFilterIds docs).zip rs).map Prod.fst).Nodup :=
      (unscoredFilterIds_nodup h).sublist (map_fst_zip_sublist _ rs)
    simpa only [filterWriteBack, setFilterScore] using
      dictLookup_foldl_keyedUpdate
        (fun i w => { i with filter_score := some (FilterVerdict.render w) })
        ((unscoredFilterIds docs).zip rs) docs hnd
  · intro docs rs h
    have hnd : (((unscoredVerifyIds docs).zip rs).map Prod.fst).Nodup :=
      (unscoredVerifyIds_nodup h).sublist (map_fst_zip_sublist _ rs)
    simpa only [verifyWriteBack, setVerifyScore] using
      dictLookup_foldl_keyedUpdate
        (fun i w => { i with verify_score := some (SupportVerdict.render w) })
        ((unscoredVerifyIds docs).zip rs) docs hnd

/-- Witness for `batch_writeback_positional` at a concrete mismatched batch. -/
theorem batch_writeback_positional_witness :
    dictLookup
        (filterWriteBack
          [("d1", { content := "t1", filter_score := none, verify_score := none }),
           ("d2", { content := "t2", filter_score := none, verify_score := none })]
          [FilterVerdict.relevant]) "d1" =
      (dictLookup
          [("d1", { content := "t1", filter_score := none, verify_score := none }),
           ("d2", { content := "t2", filter_score := none, verify_score := none })]
          "d1").map
        (fun i => { i with filter_score := some FilterVerdict.relevant.render }) :=
  ((batch_writeback_positional.1
    [("d1", { content := "t1", filter_score := none, verify_score := none }),
     ("d2", { content := "t2", filter_score := none, verify_score := none })]
    [FilterVerdict.relevant] (by decide)).1
    ("d1", FilterVerdict.relevant) (by decide))

/-- C4 counterexample: a batch classification for four unscored documents that
returns only three results does not abort the run and does write partial
scores: the first three documents get the three positional scores, the fourth
stays unscored, and Filter then proceeds normally, dropping it with the
irrelevant one. -/
theorem batch_mismatch_partial_writes :
    filterWriteBack
        [("d1", { content := "t1", filter_score := none, verify_score := none }),
         ("d2", { content := "t2", filter_score := none, verify_score := none }),
         ("d3", { content := "t3", filter_score := none, verify_score := none }),
         ("d4", { content := "t4", filter_score := none, verify_score := none })]
        [FilterVerdict.relevant, FilterVerdict.relevant,
         FilterVerdict.irrelevant] =
      [("d1", { content := "t1", filter_score := some "relevant",
                verify_score := none }),
       ("d2", { content := "t2", filter_score := some "relevant",
                verify_score := none }),
       ("d3", { content := "t3", filter_score := some "irrelevant",
                verify_score := none }),
       ("d4", { content := "t4", filter_score := none,
                verify_score := none })] ∧
    filter_docs
        [("d1", { content := "t1", filter_score := none, verify_score := none }),
         ("d2", { content := "t2", filter_score := none, verify_score := none }),
         ("d3", { content := "t3", filter_score := none, verify_score := none }),
         ("d4", { content := "t4", filter_score := none, verify_score := none })]
        [FilterVerdict.relevant, FilterVerdict.relevant,
         FilterVerdict.irrelevant] =
      [("d1", { content := "t1", filter_score := some "relevant",
                verify_score := none }),
       ("d2", { content := "t2", filter_score := some "relevant",
                verify_score := none })] := by
  exact ⟨by decide, by decide⟩

/-- Every retained entry of `filter_docs` carries a `"relevant"` score. -/
theorem mem_filter_docs_relevant {docs : Docs} {rs : List FilterVerdict}
    {p : DocId × DocInfo} (h : p ∈ filter_docs docs rs) :
    p.2.filter_score = some "relevant" :=
  of_decide_eq_true (List.mem_filter.mp h).2

/-- A docs dict whose entries are all scored has no unscored-filter ids. -/
theorem unscoredFilterIds_eq_nil {docs : Docs}
    (h : ∀ p ∈ docs, p.2.filter_score.isSome) :
    unscoredFilterIds docs = [] := by
  have hnil : docs.filter (fun p => p.2.filter_score.isNone) = [] := by
    apply List.filter_eq_nil_iff.mpr
    intro p hp hc
    have hs := h p hp
    rw [Option.isNone_iff_eq_none.mp hc] at hs
    simp at hs
  unfold unscoredFilterIds
  rw [hnil]
  rfl

/-- With no unscored documents the write-back loop is the identity. -/
theorem filterWriteBack_of_no_unscored {docs : Docs} {rs : List FilterVerdict}
    (h : unscoredFilterIds docs = []) : filterWriteBack docs rs = docs := by
  rw [filterWriteBack, h]
  rfl

/-- C7: Filter is idempotent: on a state where every document already has a
`filter_score`, zero inputs are prepared for the classification batch (so the
batch chain is never invoked); and immediately re-running Filter after a first
run prepares zero inputs and returns exactly the first run's retained set,
whatever the second batch would have answered. -/
theorem filter_idempotent :
    (∀ docs : Docs, (∀ p ∈ docs, p.2.filter_score.isSome) →
      filterBatchSize docs = 0) ∧
    (∀ (docs : Docs) (rs rs2 : List FilterVerdict),
      filterBatchSize (filter_docs docs rs) = 0 ∧
      filter_docs (filter_docs docs rs) rs2 = filter_docs docs rs) := by
  have hscored : ∀ (docs : Docs) (rs : List FilterVerdict),
      unscoredFilterIds (filter_docs docs rs) = [] := by
    intro docs rs
    exact unscoredFilterIds_eq_nil (fun p hp => by
      rw [mem_filter_docs_relevant hp]; rfl)
  constructor
  · intro docs h
    rw [filterBatchSize, unscoredFilterIds_eq_nil h]
    rfl
  · intro docs rs rs2
    constructor
    · rw [filterBatchSize, hscored]
      rfl
    · rw [filter_docs, filterWriteBack_of_no_unscored (hscored docs rs)]
      exact List.filter_eq_self.mpr (fun p hp => by
        rw [decide_eq_true_eq, mem_filter_docs_relevant hp])

/-- Witness for `filter_idempotent` at a fully scored concrete dict. -/
theorem filter_idempotent_witness :
    filterBatchSize
        [("a", { content := "t", filter_score := some "relevant",
                 verify_score := none })] = 0 ∧
    filter_docs
        (filter_docs
          [("a", { content := "t", filter_score := none, verify_score := none })]
          [FilterVerdict.relevant])
        [] =
      filter_docs
        [("a", { content := "t", filter_score := none, verify_score := none })]
        [FilterVerdict.relevant] :=
  ⟨filter_idempotent.1
      [("a", { content := "t", filter_score := some "relevant",
               verify_score := none })] (by decide),
    (filter_idempotent.2
      [("a", { content := "t", filter_score := none, verify_score := none })]
      [FilterVerdict.relevant] []).2⟩

/-- On the three canonical verify strings, the substring test `"no support" in v`
coincides with equality with the `no support` verdict. -/
theorem strContains_noSupport_render (v : SupportVerdict) :
    strContains "no support" v.render = (v == SupportVerdict.noSupport) := by
  cases v <;> decide

/-- On the three canonical verify strings, the substring test
`"fully supported" in v` coincides with equality with the `fully supported`
verdict. -/
theorem strContains_fully_render (v : SupportVerdict) :
    strContains "fully supported" v.render =
      (v == SupportVerdict.fullySupported) := by
  cases v <;> decide

/-- The lazy `any` of the aggregation, on fully scored values, computes the
ordinary `any`. -/
theorem anyNoSupport_rendered (vs : List SupportVerdict) :
    anyNoSupport (vs.map (fun v => some v.render)) =
      some (vs.any (fun v => v == SupportVerdict.noSupport)) := by
  induction vs with
  | nil => rfl
  | cons v t ih =>
      rw [List.map_cons, anyNoSupport, strContains_noSupport_render,
        List.any_cons]
      by_cases h : v = SupportVerdict.noSupport
      · rw [if_pos (by simp [h])]
        simp [h]
      · rw [if_neg (by simp [h]), ih]
        simp [h]

/-- The lazy `all` of the aggregation, on fully scored values, computes the
ordinary `all`. -/
theorem allFullySupported_rendered (vs : List SupportVerdict) :
    allFullySupported (vs.map (fun v => some v.render)) =
      some (vs.all (fun v => v == SupportVerdict.fullySupported)) := by
  induction vs with
  | nil => rfl
  | cons v t ih =>
      rw [List.map_cons, allFullySupported, strContains_fully_render,
        List.all_cons]
      by_cases h : v = SupportVerdict.fullySupported
      · rw [if_pos (by simp [h]), ih]
        simp [h]
      · rw [if_neg (by simp [h])]
        simp [h]

/-- C5: the VerifySupport aggregation over the verify scores of the retained
documents: if any document scores no-support the overall verification is
partially-supported; otherwise, if at least one document exists and every
document scores fully-supported, it is fully-supported; in every other case —
including the empty document set — it is partially-supported.  The concrete
spec scenarios are included. -/
theorem verification_aggregation :
    (∀ vs : List SupportVerdict,
      overallVerification (vs.map (fun v => some v.render)) =
        some
          (if vs.any (fun v => v == SupportVerdict.noSupport) then
            "partially supported"
          else if vs ≠ [] ∧ vs.all (fun v => v == SupportVerdict.fullySupported)
          then "fully supported"
          else "partially supported")) ∧
    overallVerification [some "fully supported", some "fully supported"] =
      some "fully supported" ∧
    overallVerification [some "fully supported", some "no support"] =
      some "partially supported" ∧
    overallVerification ([] : List (Option String)) =
      some "partially supported" := by
  refine ⟨?_, by decide, by decide, rfl⟩
  intro vs
  rw [overallVerification, anyNoSupport_rendered]
  cases hany : vs.any (fun v => v == SupportVerdict.noSupport) with
  | true => simp
  | false =>
      simp only [if_neg (by simp [hany] : ¬(vs.any
        (fun v => v == SupportVerdict.noSupport) = true))]
      cases vs with
      | nil => simp
      | cons v t =>
          simp only [List.map_cons, List.isEmpty_cons, if_neg Bool.false_ne_true]
          rw [show some v.render :: List.map (fun v => some v.render) t =
            (v :: t).map (fun v => some v.render) from rfl,
            allFullySupported_rendered]
          cases hall : (v :: t).all (fun v => v == SupportVerdict.fullySupported)
          · simp [hall]
          · simp [hall]

/-- Witness-free scenario check: the code-level aggregation and the specified
rule agree on a mixed list. -/
theorem verification_aggregation_example :
    overallVerification
        ((([SupportVerdict.fullySupported, SupportVerdict.partiallySupported]) :
          List SupportVerdict).map (fun v => some v.render)) =
      some "partially supported" := by
  decide

/-- C8: GeneratePlan invokes the plan chain on the job requirements and the
context block built from the retained documents: the concatenation (newline
joined) of their texts in insertion order, or the literal placeholder when the
retained set is empty, and its completion overwrites `plan`.  The spec scenario
(3 retrieved chunks, 2 marked relevant) yields exactly the two retained texts
joined in retrieval order. -/
theorem generate_plan_context :
    (∀ (s : PlanState) (chain : String → String → String),
      generate_plan s chain =
        { s with plan := chain s.job_requirements (docsText s.docs) }) ∧
    docsText [] = "No documentation available." ∧
    (∀ docs : Docs, docs ≠ [] →
      docsText docs =
        String.intercalate "\n" (docs.map (fun p => p.2.content))) ∧
    docsText
        (filter_docs
          (mergeRetrieved []
            [{ id := "c1", content := "text one" },
             { id := "c2", content := "text two" },
             { id := "c3", content := "text three" }])
          [FilterVerdict.relevant, FilterVerdict.irrelevant,
           FilterVerdict.relevant]) =
      "text one" ++ "\n" ++ "text three" ∧
    (filter_docs
        (mergeRetrieved []
          [{ id := "c1", content := "text one" },
           { id := "c2", content := "text two" },
           { id := "c3", content := "text three" }])
        [FilterVerdict.relevant, FilterVerdict.irrelevant,
         FilterVerdict.relevant]).length = 2 := by
  refine ⟨fun s chain => rfl, rfl, ?_, by decide, by decide⟩
  intro docs h
  rw [docsText, if_neg]
  simpa using h

/-- Witness for `generate_plan_context` on a singleton retained set. -/
theorem generate_plan_context_witness :
    ([("a", { content := "t", filter_score := some "relevant",
              verify_score := none })] : Docs) ≠ [] ∧
    docsText
        [("a", { content := "t", filter_score := some "relevant",
                 verify_score := none })] =
      String.intercalate "\n"
        (([("a", { content := "t", filter_score := some "relevant",
                   verify_score := none })] : Docs).map
          (fun p => p.2.content)) :=
  ⟨by decide,
    generate_plan_context.2.2.1
      [("a", { content := "t", filter_score := some "relevant",
               verify_score := none })] (by decide)⟩

/-- Key list of keyed-update folds. -/
theorem dictKeys_foldl_keyedUpdate (g : DocInfo → α → DocInfo) :
    ∀ (ps : List (DocId × α)) (m : Docs),
      dictKeys (ps.foldl (fun m2 pr2 => keyedUpdate g m2 pr2.1 pr2.2) m) =
        dictKeys m
  | [], _ => rfl
  | p :: t, m => by
      rw [List.foldl_cons, dictKeys_foldl_keyedUpdate g t, dictKeys_keyedUpdate]

/-- The filter write-back keeps the key list (hence uniqueness). -/
theorem dictKeys_filterWriteBack (docs : Docs) (rs : List FilterVerdict) :
    dictKeys (filterWriteBack docs rs) = dictKeys docs := by
  show dictKeys (((unscoredFilterIds docs).zip rs).foldl
      (fun m2 pr2 =>
        keyedUpdate (fun i w => { i with filter_score := some w.render })
          m2 pr2.1 pr2.2) docs) =
    dictKeys docs
  exact dictKeys_foldl_keyedUpdate _ _ _

/-- The verify write-back keeps the key list. -/
theorem dictKeys_verifyWriteBack (docs : Docs) (rs : List SupportVerdict) :
    dictKeys (verifyWriteBack docs rs) = dictKeys docs := by
  show dictKeys (((unscoredVerifyIds docs).zip rs).foldl
      (fun m2 pr2 =>
        keyedUpdate (fun i w => { i with verify_score := some w.render })
          m2 pr2.1 pr2.2) docs) =
    dictKeys docs
  exact dictKeys_foldl_keyedUpdate _ _ _

/-- Pointwise properties preserved by the field update survive `keyedUpdate`. -/
theorem mem_keyedUpdate_prop {g : DocInfo → α → DocInfo} {P : DocInfo → Prop}
    (hg : ∀ i a, P i → P (g i a)) {m : Docs}
    (hm : ∀ p ∈ m, P p.2) {k : DocId} {a : α} :
    ∀ p ∈ keyedUpdate g m k a, P p.2 := by
  intro p hp
  obtain ⟨q, hq, hpq⟩ := List.mem_map.mp hp
  by_cases h : q.1 = k
  · rw [← hpq, if_pos h]
    exact hg _ _ (hm q hq)
  · rw [← hpq, if_neg h]
    exact hm q hq

/-- Pointwise properties preserved by the field update survive the whole
write-back fold. -/
theorem mem_foldl_keyedUpdate_prop {g : DocInfo → α → DocInfo}
    {P : DocInfo → Prop} (hg : ∀ i a, P i → P (g i a)) :
    ∀ (ps : List (DocId × α)) (m : Docs), (∀ p ∈ m, P p.2) →
      ∀ p ∈ ps.foldl (fun m2 pr2 => keyedUpdate g m2 pr2.1 pr2.2) m, P p.2
  | [], _, hm => hm
  | p :: t, m, hm => by
      rw [List.foldl_cons]
      exact mem_foldl_keyedUpdate_prop hg t _ (mem_keyedUpdate_prop hg hm)

/-- Pointwise properties holding of fresh records survive the merge loop. -/
theorem mem_mergeRetrieved_prop {P : DocInfo → Prop}
    (hfresh : ∀ c : Chunk, P (freshRecord c)) :
    ∀ (chunks : List Chunk) (docs : Docs), (∀ p ∈ docs, P p.2) →
      ∀ p ∈ mergeRetrieved docs chunks, P p.2
  | [], _, hd => hd
  | c :: cs, docs, hd => by
      rw [mergeRetrieved_cons]
      refine mem_mergeRetrieved_prop hfresh cs _ ?_
      intro p hp
      rcases mem_dictSet hp with h | h
      · exact hd p h
      · rw [h]
        exact hfresh c

/-- The merge loop keeps the keys without duplicates. -/
theorem dictKeys_mergeRetrieved_nodup :
    ∀ (chunks : List Chunk) (docs : Docs), (dictKeys docs).Nodup →
      (dictKeys (mergeRetrieved docs chunks)).Nodup
  | [], _, h => h
  | c :: cs, docs, h => by
      rw [mergeRetrieved_cons]
      exact dictKeys_mergeRetrieved_nodup cs _ (dictKeys_dictSet_nodup _ _ h)

/-- Filtering keeps the keys without duplicates. -/
theorem filter_docs_keys_nodup {docs : Docs} {rs : List FilterVerdict}
    (h : (dictKeys docs).Nodup) : (dictKeys (filter_docs docs rs)).Nodup := by
  have h2 : (dictKeys (filterWriteBack docs rs)).Nodup := by
    rw [dictKeys_filterWriteBack]
    exact h
  exact h2.sublist ((List.filter_sublist _).map Prod.fst)

/-- `branch_decide` never changes the documents dict. -/
theorem branch_decide_snd_docs (s : PlanState) :
    (branch_decide s).2.docs = s.docs := by
  rcases branch_decide_snd_shape s with h | h <;> rw [h]

/-- Every loop step preserves the documents invariant. -/
theorem step_preserves_docsInv {c c2 : Config} (h : LoopStep c c2)
    (hi : docsInv c) : docsInv c2 := by
  obtain ⟨hn, hw, hs⟩ := hi
  cases h with
  | stepSummarize s q =>
      exact ⟨hn, hw,
        fun hc => by rcases hc with hc | hc | hc | hc | hc <;>
          exact absurd hc (by simp)⟩
  | stepRetrieve s chunks =>
      have hw2 : ∀ p ∈ s.docs,
          p.2.filter_score = none ∨ p.2.filter_score = some "relevant" := hw
      have hn2 : (dictKeys s.docs).Nodup := hn
      refine ⟨dictKeys_mergeRetrieved_nodup chunks s.docs hn2,
        mem_mergeRetrieved_prop
          (P := fun i => i.filter_score = none ∨ i.filter_score = some "relevant")
          (fun _ => Or.inl rfl) chunks s.docs hw2,
        fun hc => ?_⟩
      rcases hc with hc | hc | hc | hc | hc <;> exact absurd hc (by simp)
  | stepFilter s rs =>
      have hrel : ∀ p ∈ filter_docs s.docs rs,
          p.2.filter_score = some "relevant" :=
        fun _ hp => mem_filter_docs_relevant hp
      exact ⟨filter_docs_keys_nodup hn, fun p hp => Or.inr (hrel p hp),
        fun _ => hrel⟩
  | stepGenerate s chain =>
      exact ⟨hn, hw, fun _ => hs (Or.inl rfl)⟩
  | stepVerify s s2 rs hv =>
      have hd := (verify_plan_support_shape hv).2
      have hw2 : ∀ p ∈ s.docs,
          p.2.filter_score = none ∨ p.2.filter_score = some "relevant" := hw
      have hstrong : ∀ p ∈ s.docs, p.2.filter_score = some "relevant" :=
        hs (Or.inr (Or.inl rfl))
      refine ⟨?_, ?_, fun _ => ?_⟩
      · show (dictKeys s2.docs).Nodup
        rw [hd, dictKeys_verifyWriteBack]
        exact hn
      · show ∀ p ∈ s2.docs,
          p.2.filter_score = none ∨ p.2.filter_score = some "relevant"
        rw [hd]
        exact mem_foldl_keyedUpdate_prop
          (g := fun i w => { i with verify_score := some (SupportVerdict.render w) })
          (P := fun i => i.filter_score = none ∨ i.filter_score = some "relevant")
          (fun _ _ hh => hh) ((unscoredVerifyIds s.docs).zip rs) s.docs hw2
      · show ∀ p ∈ s2.docs, p.2.filter_score = some "relevant"
        rw [hd]
        exact mem_foldl_keyedUpdate_prop
          (g := fun i w => { i with verify_score := some (SupportVerdict.render w) })
          (P := fun i => i.filter_score = some "relevant")
          (fun _ _ hh => hh) ((unscoredVerifyIds s.docs).zip rs) s.docs hstrong
  | stepRate s r h1 h2 =>
      exact ⟨hn, hw, fun _ => hs (Or.inr (Or.inr (Or.inl rfl)))⟩
  | stepDecide s d =>
      have hdocs : (branch_decide (decide_retrieve s d)).2.docs = s.docs := by
        rw [branch_decide_snd_docs]
        rfl
      have hstrong := hs (Or.inr (Or.inr (Or.inr (Or.inl rfl))))
      refine ⟨?_, ?_, fun _ => ?_⟩
      · show (dictKeys (branch_decide (decide_retrieve s d)).2.docs).Nodup
        rw [hdocs]
        exact hn
      · show ∀ p ∈ (branch_decide (decide_retrieve s d)).2.docs,
          p.2.filter_score = none ∨ p.2.filter_score = some "relevant"
        rw [hdocs]
        exact hw
      · show ∀ p ∈ (branch_decide (decide_retrieve s d)).2.docs,
          p.2.filter_score = some "relevant"
        rw [hdocs]
        exact hstrong

/-- Every reachable configuration satisfies the documents invariant. -/
theorem reachable_docsInv {req : String} {c : Config} (h : Reachable req c) :
    docsInv c := by
  induction h with
  | refl =>
      exact ⟨by simp [initialState, dictKeys],
        by simp [initialState], fun _ => by simp [initialState]⟩
  | tail _ hstep ih => exact step_preserves_docsInv hstep ih

/-- C9 (amended): in every reachable configuration of the loop the documents
map keys are unique and no document is ever scored irrelevant (every filter
score is unset or `"relevant"`); and in every reachable configuration at the
GeneratePlan, VerifySupport, RatePlan or DecideRetrieve nodes or at the
terminal — i.e. from the completion of each Filter until the next Retrieve —
every document in the map has `filterScore = "relevant"`.  Immediately after
Retrieve (at the Filter node) the map may contain unscored documents, so the
invariant as originally claimed does not hold at every transition. -/
theorem docs_invariant :
    ∀ (req : String) (c : Config), Reachable req c →
      (dictKeys c.2.docs).Nodup ∧
      (∀ p ∈ c.2.docs,
        p.2.filter_score = none ∨ p.2.filter_score = some "relevant") ∧
      ((c.1 = Node.generateP ∨ c.1 = Node.verifyP ∨ c.1 = Node.rateP ∨
          c.1 = Node.decideR ∨ c.1 = Node.terminal) →
        ∀ p ∈ c.2.docs, p.2.filter_score = some "relevant") :=
  fun _ _ h => reachable_docsInv h

/-- Witness for `docs_invariant` at the initial configuration. -/
theorem docs_invariant_witness :
    (dictKeys ((Node.summarizeQ, initialState "req") : Config).2.docs).Nodup :=
  (docs_invariant "req" (Node.summarizeQ, initialState "req")
    Relation.ReflTransGen.refl).1

/-- C9 counterexample: a reachable configuration — immediately after the
Retrieve transition, at the Filter node — whose documents map contains a
document with unscored `filterScore`, refuting the claim that in every
reachable state every document of the map is scored relevant. -/
theorem docs_invariant_cex :
    Reachable "req"
        (Node.filterD,
          retrieve_docs (summarize_question (initialState "req") "q")
            [{ id := "d1", content := "text1" }]) ∧
    ¬(∀ p ∈ (retrieve_docs (summarize_question (initialState "req") "q")
          [{ id := "d1", content := "text1" }]).docs,
        p.2.filter_score = some "relevant") := by
  constructor
  · exact Relation.ReflTransGen.tail
      (Relation.ReflTransGen.tail Relation.ReflTransGen.refl
        (LoopStep.stepSummarize (initialState "req") "q"))
      (LoopStep.stepRetrieve (summarize_question (initialState "req") "q")
        [{ id := "d1", content := "text1" }])
  · decide

end AskDbx
